import Mathlib

/-!
Shallow embedding of the Portfolio Analytics Engine of the Nobify backend
(`src/backend/src/services/schedulerService.ts`).

Numbers are modelled as rationals (`ℚ`); JavaScript `Date` values are
modelled as integer milliseconds since the epoch (`ℤ`).  Nullable
JavaScript values (`number | null`, optional columns) are modelled as
`Option ℚ`.  JavaScript's `x || d` idiom on numbers treats both `null`
(here `none`) and `0` as falsy, which `jsOrQ` reproduces.  Database reads
are modelled by passing the list of transactions explicitly; the price
oracle (`getHistoricalPrice`) I/O is modelled by an explicit function
argument returning `Except Unit (Option ℚ)` (an exception, a null miss,
or a price).  `Math.sqrt` is modelled by an explicit function argument
`sqrtQ : ℚ → ℚ`.
-/

/-- The `TransactionType` enum of the Prisma schema used by the scheduler
service. -/
inductive TransactionType where
  | BUY
  | SELL
  | TRANSFER_IN
  | TRANSFER_OUT
  | AIRDROP
  | REWARD
  | STAKE
  | UNSTAKE
deriving DecidableEq, Repr

/-- A transaction row as the analytics code reads it: type, token amount,
optional price per token, optional total value, date, and the owning
holding's token symbol. -/
structure Transaction where
  type : TransactionType
  amount : ℚ
  pricePerToken : Option ℚ
  totalValue : Option ℚ
  date : ℤ
  symbol : String
deriving DecidableEq, Repr

/-- JavaScript's `x || d` on an optional number: both `null` and `0` are
falsy, so the default is taken for `none` and for `some 0`. -/
def jsOrQ (x : Option ℚ) (d : ℚ) : ℚ :=
  match x with
  | none => d
  | some v => if v = 0 then d else v

/-- The transaction's effective value in `calculateHoldingMetrics`:
`transaction.totalValue || (amount * price)` with
`price = transaction.pricePerToken || 0`. -/
def txEffectiveValue (t : Transaction) : ℚ :=
  jsOrQ t.totalValue (t.amount * jsOrQ t.pricePerToken 0)

/-- Accumulator state of the transaction loop in `calculateHoldingMetrics`. -/
structure HoldingState where
  totalAmount : ℚ
  totalCostBasis : ℚ
  realizedPnL : ℚ
deriving DecidableEq, Repr

/-- One iteration of the `for (const transaction of holding.transactions)`
loop of `calculateHoldingMetrics` (schedulerService.ts lines 274-310). -/
def applyHoldingTx (s : HoldingState) (t : Transaction) : HoldingState :=
  let amount := t.amount
  let value := txEffectiveValue t
  match t.type with
  | .BUY | .TRANSFER_IN | .AIRDROP | .REWARD =>
      { s with totalAmount := s.totalAmount + amount,
               totalCostBasis := s.totalCostBasis + value }
  | .SELL =>
      -- totalAmount is decremented first; realization happens only
      -- under the guard `totalCostBasis > 0`, and the divisor
      -- `totalAmount + amount` equals the pre-transaction amount.
      let newAmount := s.totalAmount - amount
      if s.totalCostBasis > 0 then
        let avgCostBasis := s.totalCostBasis / (newAmount + amount)
        let costOfSold := avgCostBasis * amount
        { totalAmount := newAmount,
          totalCostBasis := s.totalCostBasis - costOfSold,
          realizedPnL := s.realizedPnL + (value - costOfSold) }
      else
        { s with totalAmount := newAmount }
  | .TRANSFER_OUT =>
      { s with totalAmount := s.totalAmount - amount }
  | .STAKE | .UNSTAKE => s

/-- The metrics written back to the holding by `calculateHoldingMetrics`. -/
structure HoldingMetrics where
  currentAmount : ℚ
  averageCostBasis : Option ℚ
  totalCostBasis : ℚ
  realizedPnL : ℚ
deriving DecidableEq, Repr

/-- The pure core of `calculateHoldingMetrics` (schedulerService.ts lines
259-325): fold the transaction loop from the zero state, then derive
`averageCostBasis` when the final amount is positive. -/
def calculateHoldingMetrics (txs : List Transaction) : HoldingMetrics :=
  let s := txs.foldl applyHoldingTx ⟨0, 0, 0⟩
  { currentAmount := s.totalAmount,
    averageCostBasis :=
      if s.totalAmount > 0 then some (s.totalCostBasis / s.totalAmount) else none,
    totalCostBasis := s.totalCostBasis,
    realizedPnL := s.realizedPnL }

/-- Instrumentation of the SELL branch of `calculateHoldingMetrics`: one
entry per performed realization, recording the guarded running cost basis
and the divisor of the average-cost division (the pre-transaction
amount `totalAmount + amount`, i.e. the running amount before this
transaction). -/
def sellRealizationStep (acc : HoldingState × List (ℚ × ℚ)) (t : Transaction) :
    HoldingState × List (ℚ × ℚ) :=
  let s := acc.1
  let events :=
    match t.type with
    | .SELL =>
        if s.totalCostBasis > 0 then acc.2 ++ [(s.totalCostBasis, s.totalAmount)]
        else acc.2
    | _ => acc.2
  (applyHoldingTx s t, events)

def sellRealizations (txs : List Transaction) : List (ℚ × ℚ) :=
  (txs.foldl sellRealizationStep (⟨0, 0, 0⟩, [])).2

/-- Per-symbol reconstructed position in `estimatePortfolioValueAtDate`:
`{ amount, costBasis }`. -/
structure EstHolding where
  amount : ℚ
  costBasis : ℚ
deriving DecidableEq, Repr

/-- Insertion-ordered string map, modelling the plain JavaScript object
`holdingsAtDate` (JS objects preserve key insertion order). -/
abbrev HoldingsMap := List (String × EstHolding)

/-- Lookup in the holdings map. -/
def HoldingsMap.find (m : HoldingsMap) (sym : String) : Option EstHolding :=
  match m with
  | [] => none
  | (s, h) :: rest => if s = sym then some h else HoldingsMap.find rest sym

/-- Update an existing key in place, or append the binding at the end
(JavaScript insertion order). -/
def HoldingsMap.set (m : HoldingsMap) (sym : String) (v : EstHolding) : HoldingsMap :=
  match m with
  | [] => [(sym, v)]
  | (s, h) :: rest =>
      if s = sym then (s, v) :: rest else (s, h) :: HoldingsMap.set rest sym v

/-- The transaction's effective value in `estimatePortfolioValueAtDate`:
`transaction.totalValue || (transaction.pricePerToken || 0) * amount`. -/
def estTxValue (t : Transaction) : ℚ :=
  jsOrQ t.totalValue (jsOrQ t.pricePerToken 0 * t.amount)

/-- The outflow update of `estimatePortfolioValueAtDate` (schedulerService.ts
lines 790-798): decrement the amount, then reduce the cost basis
proportionally only when the post-transaction amount is positive, with
ratio `amount / (newAmount + amount)` (i.e. sold amount over the
pre-transaction amount). -/
def estOutflow (h : EstHolding) (amount : ℚ) : EstHolding :=
  let newAmount := h.amount - amount
  if newAmount > 0 then
    let ratio := amount / (newAmount + amount)
    { amount := newAmount, costBasis := h.costBasis * (1 - ratio) }
  else
    { h with amount := newAmount }

/-- One iteration of the replay loop of `estimatePortfolioValueAtDate`
(schedulerService.ts lines 772-800).  The symbol's entry is created (as
`{amount: 0, costBasis: 0}`) before the switch, for every transaction
type; `STAKE`/`UNSTAKE` have no case in this switch and change nothing
else. -/
def applyEstimateTx (m : HoldingsMap) (t : Transaction) : HoldingsMap :=
  let m := if (HoldingsMap.find m t.symbol).isSome then m else m ++ [(t.symbol, ⟨0, 0⟩)]
  let h := (HoldingsMap.find m t.symbol).getD ⟨0, 0⟩
  let amount := t.amount
  let value := estTxValue t
  match t.type with
  | .BUY | .TRANSFER_IN | .AIRDROP | .REWARD =>
      HoldingsMap.set m t.symbol
        { amount := h.amount + amount, costBasis := h.costBasis + value }
  | .SELL | .TRANSFER_OUT =>
      HoldingsMap.set m t.symbol (estOutflow h amount)
  | .STAKE | .UNSTAKE => m

/-- The holdings-reconstruction phase of `estimatePortfolioValueAtDate`:
replay all transactions dated at or before the target date, in date
order, through `applyEstimateTx`. -/
def replayHoldingsAtDate (txs : List Transaction) (targetDate : ℤ) : HoldingsMap :=
  ((txs.filter (fun t => t.date ≤ targetDate)).insertionSort
      (fun a b => a.date ≤ b.date)).foldl applyEstimateTx []

/-- The price oracle: `getHistoricalPrice(symbol, date)` may throw
(`Except.error`), return `null` (`Except.ok none`), or return a price. -/
abbrev PriceOracle := String → ℤ → Except Unit (Option ℚ)

/-- The contribution of one reconstructed entry in the valuation loop of
`estimatePortfolioValueAtDate` (schedulerService.ts lines 805-820):
entries with non-positive amount contribute nothing; otherwise an oracle
exception or a falsy price (`null` or `0`) falls back to the entry's
cost basis, and a truthy price contributes `amount * price`. -/
def entryContribution (oracle : PriceOracle) (targetDate : ℤ)
    (sym : String) (h : EstHolding) : ℚ :=
  if h.amount > 0 then
    match oracle sym targetDate with
    | .error _ => h.costBasis
    | .ok none => h.costBasis
    | .ok (some p) => if p = 0 then h.costBasis else h.amount * p
  else 0

/-- The valuation phase of `estimatePortfolioValueAtDate`: sum the
contributions of the reconstructed entries. -/
def valuationOf (oracle : PriceOracle) (targetDate : ℤ) (m : HoldingsMap) : ℚ :=
  m.foldl (fun total e => total + entryContribution oracle targetDate e.1 e.2) 0

/-- The pure core of `estimatePortfolioValueAtDate` (schedulerService.ts
lines 756-823): replay, then value at the target date. -/
def estimatePortfolioValueAtDate (txs : List Transaction) (oracle : PriceOracle)
    (targetDate : ℤ) : ℚ :=
  valuationOf oracle targetDate (replayHoldingsAtDate txs targetDate)

/-- One point of the daily series of `calculateDailyReturns`:
`{ date, value, return }`. -/
structure DayPoint where
  date : ℤ
  value : ℚ
  ret : ℚ
deriving DecidableEq, Repr

/-- One day in milliseconds: `24 * 60 * 60 * 1000`. -/
def dayMs : ℤ := 86400000

/-- The loop of `calculateDailyReturns` (schedulerService.ts lines
900-920), recursing on the number of remaining days: the i-th point is
dated `startMs + i*dayMs`; its return is `(v - prev)/prev * 100` when a
previous value exists and is positive, else `0`. -/
def dailyReturnsFrom (val : ℤ → ℚ) (startMs : ℤ) :
    (i : ℕ) → (remaining : ℕ) → (prev : Option ℚ) → List DayPoint
  | _, 0, _ => []
  | i, remaining + 1, prev =>
      let currentDate := startMs + i * dayMs
      let v := val currentDate
      let ret :=
        match prev with
        | some pv => if pv > 0 then ((v - pv) / pv) * 100 else 0
        | none => 0
      ⟨currentDate, v, ret⟩ :: dailyReturnsFrom val startMs (i + 1) remaining (some v)

/-- The pure core of `calculateDailyReturns` (schedulerService.ts lines
892-923): `days` iterations starting at `now - days*dayMs`, with the
per-day portfolio value given by `val` (in the service,
`estimatePortfolioValueAtDate` for the user). -/
def calculateDailyReturns (val : ℤ → ℚ) (nowMs : ℤ) (days : ℕ) : List DayPoint :=
  dailyReturnsFrom val (nowMs - days * dayMs) 0 days none

/-- Result of `calculateMaxDrawdown`: the drawdown percentage (null when no
positive drawdown was observed) and the `{start, end}` period achieving
it. -/
structure MaxDrawdownResult where
  maxDrawdown : Option ℚ
  maxDrawdownPeriod : Option (ℤ × ℤ)
deriving DecidableEq, Repr

/-- `calculateMaxDrawdown` (schedulerService.ts lines 928-959): track the
running peak (strict improvement updates peak and peak date), compute
each day's drawdown as `(peak - value)/peak * 100` when the peak is
positive (else `0`), keep the maximum, and return null when that maximum
is not positive. -/
def maxDrawdownStep (acc : ℚ × Option (ℤ × ℤ) × ℚ × ℤ) (day : DayPoint) :
    ℚ × Option (ℤ × ℤ) × ℚ × ℤ :=
  let maxDD := acc.1
  let period := acc.2.1
  let peak0 := acc.2.2.1
  let peakDate0 := acc.2.2.2
  let peak := if day.value > peak0 then day.value else peak0
  let peakDate := if day.value > peak0 then day.date else peakDate0
  let drawdown := if peak > 0 then ((peak - day.value) / peak) * 100 else 0
  if drawdown > maxDD then (drawdown, some (peakDate, day.date), peak, peakDate)
  else (maxDD, period, peak, peakDate)

def calculateMaxDrawdown (dailyReturns : List DayPoint) : MaxDrawdownResult :=
  match dailyReturns with
  | [] => ⟨none, none⟩
  | d0 :: _ =>
      let st := dailyReturns.foldl maxDrawdownStep (0, none, d0.value, d0.date)
      ⟨if st.1 > 0 then some st.1 else none, st.2.1⟩

/-- The drawdown recorded by `maxDrawdownStep` for day `d` when the
incoming peak is `pk`: the updated peak is `max pk d.value`, and the
drawdown is `(peak - value)/peak * 100` when that peak is positive. -/
def ddOf (pk : ℚ) (d : DayPoint) : ℚ :=
  if max pk d.value > 0 then ((max pk d.value - d.value) / max pk d.value) * 100
  else 0

/-- The `AdvancedPortfolioMetrics` result shape.  `bestDay`/`worstDay` are
`(date, return)` pairs. -/
structure AdvancedPortfolioMetrics where
  sharpeRatio : Option ℚ
  volatility : Option ℚ
  maxDrawdown : Option ℚ
  maxDrawdownPeriod : Option (ℤ × ℤ)
  averageReturn : ℚ
  winRate : ℚ
  bestDay : Option (ℤ × ℚ)
  worstDay : Option (ℤ × ℚ)
  totalTradingDays : ℕ
deriving DecidableEq, Repr

/-- The statistics part of `calculateAdvancedMetrics` (schedulerService.ts
lines 832-886), as a function of the daily return series.  `Math.sqrt`
is the argument `sqrtQ`.  `Math.max(...returns)`/`Math.min(...returns)`
followed by `indexOf` are modelled by `List.max?`/`List.min?` and
`List.indexOf` (on the non-empty branch the maximum and minimum are
members, so `indexOf` finds them; the `-1` case of JavaScript `indexOf`
corresponds to `none`). -/
def calculateAdvancedMetricsCore (sqrtQ : ℚ → ℚ)
    (dailyReturns : List DayPoint) : AdvancedPortfolioMetrics :=
  if dailyReturns.length = 0 then
    { sharpeRatio := none, volatility := none, maxDrawdown := none,
      maxDrawdownPeriod := none, averageReturn := 0, winRate := 0,
      bestDay := none, worstDay := none, totalTradingDays := 0 }
  else
    let returns := dailyReturns.map (·.ret)
    let averageReturn := returns.foldl (· + ·) 0 / (returns.length : ℚ)
    let variance :=
      returns.foldl (fun s r => s + (r - averageReturn) ^ 2) 0 / (returns.length : ℚ)
    let volatility := sqrtQ variance * sqrtQ 365
    let sharpeRatio :=
      if volatility > 0 then some ((averageReturn * 365) / volatility) else none
    let dd := calculateMaxDrawdown dailyReturns
    let winningDays := (returns.filter (fun r => r > 0)).length
    let winRate := ((winningDays : ℚ) / (returns.length : ℚ)) * 100
    let bestDay : Option (ℤ × ℚ) :=
      match returns.max? with
      | some m =>
          let i := returns.indexOf m
          -- the maximum of a non-empty list is a member, so `i` is in range
          -- and the `getD` defaults are never taken
          some (((dailyReturns.get? i).map (·.date)).getD 0, (returns.get? i).getD 0)
      | none => none
    let worstDay : Option (ℤ × ℚ) :=
      match returns.min? with
      | some m =>
          let i := returns.indexOf m
          some (((dailyReturns.get? i).map (·.date)).getD 0, (returns.get? i).getD 0)
      | none => none
    { sharpeRatio := sharpeRatio,
      volatility := some volatility,
      maxDrawdown := dd.maxDrawdown,
      maxDrawdownPeriod := dd.maxDrawdownPeriod,
      averageReturn := averageReturn * 365,
      winRate := winRate,
      bestDay := bestDay,
      worstDay := worstDay,
      totalTradingDays := returns.length }

/-- The `calculateRiskMetrics` result shape. -/
structure RiskMetrics where
  valueAtRisk95 : Option ℚ
  valueAtRisk99 : Option ℚ
  conditionalValueAtRisk : Option ℚ
  downsideDeviation : Option ℚ
  sortinoRatio : Option ℚ
deriving DecidableEq, Repr

/-- JavaScript's `x || null` on a possibly-undefined number: an
out-of-range index (`none`) and a zero value both yield `null`. -/
def jsNumOrNull (x : Option ℚ) : Option ℚ :=
  match x with
  | none => none
  | some v => if v = 0 then none else some v

/-- The statistics part of `calculateRiskMetrics` (schedulerService.ts
lines 973-1016), as a function of the daily return series.  The
JavaScript `sort((a, b) => a - b)` is modelled by `List.insertionSort
(· ≤ ·)` (on numbers, any ascending sort yields the same list).
`Math.floor(n * 0.05)` and `Math.floor(n * 0.01)` are modelled by the
rational floor. -/
def calculateRiskMetricsCore (sqrtQ : ℚ → ℚ)
    (dailyReturns : List DayPoint) : RiskMetrics :=
  if dailyReturns.length = 0 then
    ⟨none, none, none, none, none⟩
  else
    let returns := (dailyReturns.map (·.ret)).insertionSort (· ≤ ·)
    let averageReturn := returns.foldl (· + ·) 0 / (returns.length : ℚ)
    let var95Index := Nat.floor ((returns.length : ℚ) * (5 / 100))
    let var99Index := Nat.floor ((returns.length : ℚ) * (1 / 100))
    let valueAtRisk95 := jsNumOrNull (returns.get? var95Index)
    let valueAtRisk99 := jsNumOrNull (returns.get? var99Index)
    let worstReturns := returns.take (var95Index + 1)
    let conditionalValueAtRisk :=
      if worstReturns.length > 0 then
        some (worstReturns.foldl (· + ·) 0 / (worstReturns.length : ℚ))
      else none
    let negativeReturns := returns.filter (fun r => r < 0)
    let downsideDeviation :=
      if negativeReturns.length > 0 then
        some (sqrtQ (negativeReturns.foldl (fun s r => s + r ^ 2) 0 /
          (negativeReturns.length : ℚ)))
      else none
    let sortinoRatio :=
      match downsideDeviation with
      | some d => if d > 0 then some ((averageReturn * 365) / (d * sqrtQ 365)) else none
      | none => none
    ⟨valueAtRisk95, valueAtRisk99, conditionalValueAtRisk, downsideDeviation, sortinoRatio⟩

/-- `calculateAdvancedMetrics` (schedulerService.ts lines 828-887): the
statistics of the user's 365-day daily return series, where each day's
portfolio value comes from `estimatePortfolioValueAtDate`. -/
def calculateAdvancedMetrics (sqrtQ : ℚ → ℚ) (txs : List Transaction)
    (oracle : PriceOracle) (nowMs : ℤ) : AdvancedPortfolioMetrics :=
  calculateAdvancedMetricsCore sqrtQ
    (calculateDailyReturns (estimatePortfolioValueAtDate txs oracle) nowMs 365)

/-- `calculateRiskMetrics` (schedulerService.ts lines 964-1017): the risk
statistics of the user's 365-day daily return series. -/
def calculateRiskMetrics (sqrtQ : ℚ → ℚ) (txs : List Transaction)
    (oracle : PriceOracle) (nowMs : ℤ) : RiskMetrics :=
  calculateRiskMetricsCore sqrtQ
    (calculateDailyReturns (estimatePortfolioValueAtDate txs oracle) nowMs 365)

/-- The `EnhancedPortfolioMetrics` aggregate, generic over the summary,
time-based-performance and benchmark entry types (those sections are
opaque to the aggregation control flow). -/
structure EnhancedPortfolioMetrics (σ τ β : Type) where
  summary : σ
  timeBasedPerformance : List τ
  advancedMetrics : AdvancedPortfolioMetrics
  benchmarkComparisons : List β
  riskMetrics : RiskMetrics
deriving DecidableEq, Repr

/-- The fallback `advancedMetrics` literal of `getEnhancedPortfolioMetrics`
(schedulerService.ts lines 1168-1178). -/
def fallbackAdvancedMetrics : AdvancedPortfolioMetrics :=
  { sharpeRatio := none, volatility := none, maxDrawdown := none,
    maxDrawdownPeriod := none, averageReturn := 0, winRate := 0,
    bestDay := none, worstDay := none, totalTradingDays := 0 }

/-- The fallback `riskMetrics` literal of `getEnhancedPortfolioMetrics`
(schedulerService.ts lines 1180-1186). -/
def fallbackRiskMetrics : RiskMetrics :=
  ⟨none, none, none, none, none⟩

/-- `getEnhancedPortfolioMetrics` (schedulerService.ts lines 1135-1189).
Each sub-computation is modelled by its `Except` outcome.  When all five
succeed, the full structure is returned.  When any fails, the `catch`
block runs a second `getPortfolioSummary` call (`fallbackSummaryRes`):
if it succeeds, the fallback structure is returned; if it throws, that
error propagates out of the function. -/
def getEnhancedPortfolioMetrics {ε σ τ β : Type}
    (summaryRes : Except ε σ)
    (timeBasedRes : Except ε (List τ))
    (advancedRes : Except ε AdvancedPortfolioMetrics)
    (riskRes : Except ε RiskMetrics)
    (benchmarkRes : Except ε (List β))
    (fallbackSummaryRes : Except ε σ) :
    Except ε (EnhancedPortfolioMetrics σ τ β) :=
  match summaryRes, timeBasedRes, advancedRes, riskRes, benchmarkRes with
  | .ok s, .ok t, .ok a, .ok r, .ok b =>
      .ok { summary := s, timeBasedPerformance := t, advancedMetrics := a,
            benchmarkComparisons := b, riskMetrics := r }
  | _, _, _, _, _ =>
      match fallbackSummaryRes with
      | .ok s =>
          .ok { summary := s, timeBasedPerformance := [],
                advancedMetrics := fallbackAdvancedMetrics,
                benchmarkComparisons := [], riskMetrics := fallbackRiskMetrics }
      | .error e => .error e

/-- The all-zero daily series produced for a user with an empty transaction
ledger: point `k` (counting from `i`) is dated `startMs + (i+k)*dayMs`
and has value and return `0`. -/
def zeroPointsFrom (startMs : ℤ) : (i : ℕ) → (remaining : ℕ) → List DayPoint
  | _, 0 => []
  | i, remaining + 1 =>
      ⟨startMs + i * dayMs, 0, 0⟩ :: zeroPointsFrom startMs (i + 1) remaining

/-- Specification-side notion of a decline against the running peak: some
day's value lies strictly below the (positive) running maximum of the
values seen so far, the peak being seeded with the accumulator `pk`. -/
def runningPeakDecline : ℚ → List DayPoint → Prop
  | _, [] => False
  | pk, d :: rest =>
      (0 < max pk d.value ∧ d.value < max pk d.value) ∨
        runningPeakDecline (max pk d.value) rest

/-- A decline from a running peak occurred in the series: as in
`calculateMaxDrawdown`, the peak is seeded with the first day's value. -/
def declineOccurred (l : List DayPoint) : Prop :=
  match l with
  | [] => False
  | d0 :: _ => runningPeakDecline d0.value l

/-- A price oracle that always reports a historical-price miss (`null`). -/
def missOracle : PriceOracle := fun _ _ => .ok none

/-- A price oracle that throws for `"BTC"` and prices every other symbol
at `10`. -/
def btcErrorOracle : PriceOracle := fun s _ =>
  if s = "BTC" then .error () else .ok (some 10)

/-- A stand-in for `Math.sqrt` that is exact at `0` (all inputs used in the
concrete instances below are `0`). -/
def sqrtZero : ℚ → ℚ := fun _ => 0

/-! ## Theorems -/

/-- C2.  For the transaction sequence of one BUY of amount `1` with total
value `40000` followed by one SELL of amount `1/2` with total value
`25000`, `calculateHoldingMetrics` yields resulting amount `1/2`, total
cost basis `20000`, and realized P&L `5000`. -/
theorem spec_C2 :
    (calculateHoldingMetrics
      [⟨.BUY, 1, none, some 40000, 0, "BTC"⟩,
       ⟨.SELL, 1/2, none, some 25000, 1, "BTC"⟩]).currentAmount = 1/2 ∧
    (calculateHoldingMetrics
      [⟨.BUY, 1, none, some 40000, 0, "BTC"⟩,
       ⟨.SELL, 1/2, none, some 25000, 1, "BTC"⟩]).totalCostBasis = 20000 ∧
    (calculateHoldingMetrics
      [⟨.BUY, 1, none, some 40000, 0, "BTC"⟩,
       ⟨.SELL, 1/2, none, some 25000, 1, "BTC"⟩]).realizedPnL = 5000 := by
  norm_num [calculateHoldingMetrics, applyHoldingTx, txEffectiveValue, jsOrQ]

/-- Auxiliary for C3: every recorded realization event carries the guarded
running cost basis, which the guard forces to be positive; the fold
preserves this for any starting accumulator. -/
theorem sellRealizations_aux (txs : List Transaction) :
    ∀ acc : HoldingState × List (ℚ × ℚ), (∀ p ∈ acc.2, 0 < p.1) →
      ∀ p ∈ (txs.foldl sellRealizationStep acc).2, 0 < p.1 := by
  induction txs with
  | nil => intro acc h; simpa using h
  | cons t rest ih =>
      intro acc h
      simp only [List.foldl_cons]
      apply ih
      intro p hp
      unfold sellRealizationStep at hp
      rcases ht : t.type <;> simp [ht] at hp <;> try exact h p hp
      by_cases hcb : acc.1.totalCostBasis > 0
      · rw [if_pos hcb] at hp
        rcases List.mem_append.mp hp with hmem | hmem
        · exact h p hmem
        · simp at hmem
          rw [hmem]
          exact hcb
      · rw [if_neg hcb] at hp
        exact h p hp

/-- C3 (amended).  In `calculateHoldingMetrics`, a SELL realization — whose
average-cost division divides the running cost basis by the
pre-transaction amount — is performed exactly under the guard
`totalCostBasis > 0`: every performed realization has a positive running
cost basis, but the pre-transaction amount (the divisor) is not checked
and may be zero or negative. -/
theorem spec_C3 (txs : List Transaction) :
    ∀ p ∈ sellRealizations txs, 0 < p.1 :=
  sellRealizations_aux txs (⟨0, 0, 0⟩, []) (by simp)

/-- Witness for C3: on the BUY/TRANSFER_OUT/SELL sequence below the single
performed realization has running cost basis `100 > 0`. -/
theorem spec_C3_witness :
    ((100 : ℚ), (0 : ℚ)) ∈ sellRealizations
      [⟨.BUY, 1, none, some 100, 0, "BTC"⟩,
       ⟨.TRANSFER_OUT, 1, none, none, 1, "BTC"⟩,
       ⟨.SELL, 1, none, some 50, 2, "BTC"⟩] ∧ (0 : ℚ) < 100 :=
  ⟨by norm_num [sellRealizations, sellRealizationStep, applyHoldingTx,
      txEffectiveValue, jsOrQ],
   spec_C3
      [⟨.BUY, 1, none, some 100, 0, "BTC"⟩,
       ⟨.TRANSFER_OUT, 1, none, none, 1, "BTC"⟩,
       ⟨.SELL, 1, none, some 50, 2, "BTC"⟩]
      ((100 : ℚ), (0 : ℚ))
      (by norm_num [sellRealizations, sellRealizationStep,
        applyHoldingTx, txEffectiveValue, jsOrQ])⟩

/-- Counterexample to C3 as stated: after a BUY of `1` (cost `100`) and a
TRANSFER_OUT of `1`, a SELL of `1` passes the code's guard
(`totalCostBasis = 100 > 0`) while the pre-transaction amount — the
divisor of the average-cost division — is `0`, so the division is
performed with a zero divisor. -/
theorem spec_C3_counterexample :
    sellRealizations
      [⟨.BUY, 1, none, some 100, 0, "BTC"⟩,
       ⟨.TRANSFER_OUT, 1, none, none, 1, "BTC"⟩,
       ⟨.SELL, 1, none, some 50, 2, "BTC"⟩] = [(100, 0)] ∧
    ¬ (∀ p ∈ sellRealizations
      [⟨.BUY, 1, none, some 100, 0, "BTC"⟩,
       ⟨.TRANSFER_OUT, 1, none, none, 1, "BTC"⟩,
       ⟨.SELL, 1, none, some 50, 2, "BTC"⟩], 0 < p.2) := by
  refine ⟨?_, ?_⟩ <;>
    norm_num [sellRealizations, sellRealizationStep, applyHoldingTx,
      txEffectiveValue, jsOrQ]

/-- Lookup after update: setting a symbol's entry makes it the entry found
for that symbol, whether the key was present or is appended. -/
theorem HoldingsMap.find_set (m : HoldingsMap) (sym : String) (v : EstHolding) :
    HoldingsMap.find (HoldingsMap.set m sym v) sym = some v := by
  induction m with
  | nil => simp [HoldingsMap.set, HoldingsMap.find]
  | cons e rest ih =>
      obtain ⟨s, h⟩ := e
      by_cases hs : s = sym
      · simp [HoldingsMap.set, HoldingsMap.find, hs]
      · simp [HoldingsMap.set, HoldingsMap.find, hs, ih]

/-- C5 (amended).  In the historical replay, an outflow (SELL or
TRANSFER_OUT) of `t.amount` from a tracked position `h` leaves the
amount `h.amount - t.amount` and reduces the cost basis proportionally
(`costBasis * (1 - soldAmount / amountBeforeSale)`) only when the
post-outflow amount is positive; when the outflow brings the amount to
zero or below, the cost basis is left unchanged. -/
theorem spec_C5 (m : HoldingsMap) (t : Transaction) (h : EstHolding)
    (hty : t.type = .SELL ∨ t.type = .TRANSFER_OUT)
    (hfind : HoldingsMap.find m t.symbol = some h) :
    HoldingsMap.find (applyEstimateTx m t) t.symbol =
      some { amount := h.amount - t.amount,
             costBasis :=
               if h.amount - t.amount > 0
               then h.costBasis * (1 - t.amount / h.amount)
               else h.costBasis } := by
  have hsome : (HoldingsMap.find m t.symbol).isSome = true := by
    rw [hfind]; rfl
  have hout : estOutflow h t.amount =
      { amount := h.amount - t.amount,
        costBasis :=
          if h.amount - t.amount > 0
          then h.costBasis * (1 - t.amount / h.amount)
          else h.costBasis } := by
    simp only [estOutflow]
    split_ifs with hpos
    · simp [sub_add_cancel]
    · rfl
  rcases hty with hty | hty <;>
    simp [applyEstimateTx, hsome, hfind, hty, HoldingsMap.find_set, hout]

/-- Witness for C5 (amended): selling `1` from a position of `2` with cost
basis `100` leaves amount `1` and cost basis `50`. -/
theorem spec_C5_witness :
    HoldingsMap.find [("BTC", (⟨2, 100⟩ : EstHolding))] "BTC" = some ⟨2, 100⟩ ∧
    HoldingsMap.find
      (applyEstimateTx [("BTC", ⟨2, 100⟩)] ⟨.SELL, 1, none, some 60, 5, "BTC"⟩)
      "BTC" =
      some { amount := (2 : ℚ) - 1,
             costBasis :=
               if (2 : ℚ) - 1 > 0 then 100 * (1 - 1 / 2) else (100 : ℚ) } :=
  ⟨by norm_num [HoldingsMap.find],
   spec_C5 [("BTC", ⟨2, 100⟩)] ⟨.SELL, 1, none, some 60, 5, "BTC"⟩ ⟨2, 100⟩
     (Or.inl rfl) (by norm_num [HoldingsMap.find])⟩

/-- Counterexample to C5 as stated: a BUY of `1` at cost `100` followed by a
SELL of the full amount brings the reconstructed amount to `0`, and the
replay of `estimatePortfolioValueAtDate` leaves the cost basis at `100`
instead of multiplying it by `1 - soldAmount/amountBeforeSale = 0`. -/
theorem spec_C5_counterexample :
    HoldingsMap.find
      (replayHoldingsAtDate
        [⟨.BUY, 1, none, some 100, 0, "BTC"⟩,
         ⟨.SELL, 1, none, some 50, 1, "BTC"⟩] 10)
      "BTC" = some ⟨0, 100⟩ ∧
    (100 : ℚ) ≠ 100 * (1 - 1 / 1) := by
  refine ⟨?_, by norm_num⟩
  norm_num [replayHoldingsAtDate, applyEstimateTx, estOutflow, estTxValue,
    jsOrQ, List.insertionSort, List.orderedInsert, List.filter,
    HoldingsMap.find, HoldingsMap.set]

/-- The valuation fold distributes over its accumulator. -/
theorem valuationOf_foldl_shift (oracle : PriceOracle) (d : ℤ) (m : HoldingsMap)
    (a : ℚ) :
    m.foldl (fun total e => total + entryContribution oracle d e.1 e.2) a =
      a + valuationOf oracle d m := by
  induction m generalizing a with
  | nil => simp [valuationOf]
  | cons e rest ih =>
      simp only [valuationOf, List.foldl_cons] at *
      rw [ih, ih (0 + entryContribution oracle d e.1 e.2)]
      ring

/-- C6.  In the valuation phase of `estimatePortfolioValueAtDate`, a symbol
whose oracle call throws or returns a historical-price miss, while its
reconstructed amount is positive, contributes exactly its reconstructed
cost basis, and the remaining symbols (before and after it) are still
summed. -/
theorem spec_C6 (oracle : PriceOracle) (d : ℤ) (xs ys : HoldingsMap)
    (sym : String) (h : EstHolding)
    (hmiss : oracle sym d = .error () ∨ oracle sym d = .ok none)
    (hpos : 0 < h.amount) :
    valuationOf oracle d (xs ++ (sym, h) :: ys) =
      valuationOf oracle d xs + h.costBasis + valuationOf oracle d ys := by
  have hc : entryContribution oracle d sym h = h.costBasis := by
    unfold entryContribution
    rcases hmiss with hm | hm <;> simp [hm, hpos]
  unfold valuationOf
  rw [List.foldl_append, List.foldl_cons]
  rw [valuationOf_foldl_shift oracle d ys]
  have hxs : List.foldl (fun total e => total + entryContribution oracle d e.1 e.2)
      0 xs = valuationOf oracle d xs := rfl
  rw [hxs, hc]
  rfl

/-- Witness for C6: symbol `"BTC"` throws in the oracle while holding
amount `1` and cost basis `5000`; the total is the `"ETH"` contribution
plus exactly `5000`. -/
theorem spec_C6_witness :
    (btcErrorOracle "BTC" 0 = .error () ∨ btcErrorOracle "BTC" 0 = .ok none) ∧
    (0 : ℚ) < 1 ∧
    valuationOf btcErrorOracle 0
        ([("ETH", (⟨1, 10⟩ : EstHolding))] ++ ("BTC", (⟨1, 5000⟩ : EstHolding)) :: []) =
      valuationOf btcErrorOracle 0 [("ETH", (⟨1, 10⟩ : EstHolding))] + 5000 +
        valuationOf btcErrorOracle 0 [] :=
  ⟨Or.inl rfl, by norm_num,
   spec_C6 btcErrorOracle 0 [("ETH", ⟨1, 10⟩)] [] "BTC" ⟨1, 5000⟩
     (Or.inl rfl) (by norm_num)⟩

/-- C7 (amended).  If any sub-computation of the aggregated report fails
and the fallback `getPortfolioSummary` call succeeds, then
`getEnhancedPortfolioMetrics` returns (does not throw) the fully-typed
fallback structure: the summary is included and every other section is
set to its empty/null form. -/
theorem spec_C7 {ε σ τ β : Type} (s1 : Except ε σ) (t : Except ε (List τ))
    (a : Except ε AdvancedPortfolioMetrics) (r : Except ε RiskMetrics)
    (b : Except ε (List β)) (fb : Except ε σ) (s : σ)
    (hfail : (s1.isOk && t.isOk && a.isOk && r.isOk && b.isOk) = false)
    (hfb : fb = .ok s) :
    getEnhancedPortfolioMetrics s1 t a r b fb =
      .ok { summary := s, timeBasedPerformance := [],
            advancedMetrics := fallbackAdvancedMetrics,
            benchmarkComparisons := [], riskMetrics := fallbackRiskMetrics } := by
  subst hfb
  cases s1 <;> cases t <;> cases a <;> cases r <;> cases b <;>
    simp_all [getEnhancedPortfolioMetrics, Except.isOk, Except.toBool]

/-- Witness for C7 (amended): the summary sub-computation fails, the
fallback summary call succeeds with `5`, and the aggregator returns the
fallback structure. -/
theorem spec_C7_witness :
    (((Except.error 7 : Except ℕ ℕ).isOk && (Except.ok [] : Except ℕ (List Unit)).isOk &&
        (Except.ok fallbackAdvancedMetrics : Except ℕ AdvancedPortfolioMetrics).isOk &&
        (Except.ok fallbackRiskMetrics : Except ℕ RiskMetrics).isOk &&
        (Except.ok [] : Except ℕ (List Unit)).isOk) = false) ∧
    getEnhancedPortfolioMetrics (Except.error 7 : Except ℕ ℕ)
        (Except.ok [] : Except ℕ (List Unit)) (Except.ok fallbackAdvancedMetrics)
        (Except.ok fallbackRiskMetrics) (Except.ok [] : Except ℕ (List Unit))
        (Except.ok 5) =
      .ok { summary := 5, timeBasedPerformance := [],
            advancedMetrics := fallbackAdvancedMetrics,
            benchmarkComparisons := [], riskMetrics := fallbackRiskMetrics } :=
  ⟨rfl,
   spec_C7 (Except.error 7) (Except.ok []) (Except.ok fallbackAdvancedMetrics)
     (Except.ok fallbackRiskMetrics) (Except.ok []) (Except.ok 5) 5 rfl rfl⟩

/-- Counterexample to C7 as stated: when a sub-computation throws and the
fallback `getPortfolioSummary` call in the `catch` block also throws
(here, deterministically the same failing summary computation), the
function itself throws instead of returning a structure. -/
theorem spec_C7_counterexample :
    getEnhancedPortfolioMetrics (Except.error 7 : Except ℕ ℕ)
        (Except.ok [] : Except ℕ (List Unit)) (Except.ok fallbackAdvancedMetrics)
        (Except.ok fallbackRiskMetrics) (Except.ok [] : Except ℕ (List Unit))
        (Except.error 7) = .error 7 ∧
    ∀ res : EnhancedPortfolioMetrics ℕ Unit Unit,
      getEnhancedPortfolioMetrics (Except.error 7 : Except ℕ ℕ)
        (Except.ok [] : Except ℕ (List Unit)) (Except.ok fallbackAdvancedMetrics)
        (Except.ok fallbackRiskMetrics) (Except.ok [] : Except ℕ (List Unit))
        (Except.error 7) ≠ .ok res := by
  refine ⟨rfl, ?_⟩
  intro res
  simp [getEnhancedPortfolioMetrics]

/-- The daily-returns loop produces exactly one point per remaining day. -/
theorem dailyReturnsFrom_length (val : ℤ → ℚ) (startMs : ℤ) :
    ∀ (rem i : ℕ) (prev : Option ℚ),
      (dailyReturnsFrom val startMs i rem prev).length = rem := by
  intro rem
  induction rem with
  | zero => intro i prev; rfl
  | succ n ih => intro i prev; simp [dailyReturnsFrom, ih]

/-- The dates of the daily-returns loop: point `k` is dated
`startMs + (i + k) * dayMs`. -/
theorem dailyReturnsFrom_dates (val : ℤ → ℚ) (startMs : ℤ) :
    ∀ (rem i : ℕ) (prev : Option ℚ),
      (dailyReturnsFrom val startMs i rem prev).map (·.date) =
        (List.range rem).map (fun k => startMs + (((i + k : ℕ)) : ℤ) * dayMs) := by
  intro rem
  induction rem with
  | zero => intro i prev; rfl
  | succ n ih =>
      intro i prev
      rw [List.range_succ_eq_map]
      simp only [dailyReturnsFrom, List.map_cons, List.map_map, List.cons.injEq]
      refine ⟨by norm_num, ?_⟩
      rw [ih (i + 1)]
      apply List.map_congr_left
      intro a _
      simp only [Function.comp_apply]
      push_cast
      ring

/-- C4 (amended).  For every value function, call time and window, the
daily return series has exactly `windowDays` points (not
`windowDays + 1`), dated `now - windowDays*dayMs + k*dayMs` for
`k = 0, …, windowDays - 1` — so it covers the half-open window ending
one day before the call time, and its last point is not dated `now` —
and the first point's return is `0`. -/
theorem spec_C4 (val : ℤ → ℚ) (nowMs : ℤ) (days : ℕ) :
    (calculateDailyReturns val nowMs days).length = days ∧
    (calculateDailyReturns val nowMs days).map (·.date) =
      (List.range days).map (fun (k : ℕ) => nowMs - days * dayMs + (k : ℤ) * dayMs) ∧
    (∀ p, (calculateDailyReturns val nowMs days).head? = some p → p.ret = 0) := by
  refine ⟨dailyReturnsFrom_length val _ days 0 none, ?_, ?_⟩
  · rw [calculateDailyReturns, dailyReturnsFrom_dates val _ days 0 none]
    apply List.map_congr_left
    intro a _
    norm_num
  · intro p hp
    cases days with
    | zero => simp [calculateDailyReturns, dailyReturnsFrom] at hp
    | succ n =>
        simp only [calculateDailyReturns, dailyReturnsFrom, List.head?_cons,
          Option.some_inj] at hp
        rw [← hp]

/-- Witness for C4 (amended): with constant value `0`, call time `0` and a
2-day window, the first point is `⟨-172800000, 0, 0⟩` and its return is
`0`. -/
theorem spec_C4_witness :
    (calculateDailyReturns (fun _ => 0) 0 2).head? =
      some (⟨-172800000, 0, 0⟩ : DayPoint) ∧
    (⟨-172800000, 0, 0⟩ : DayPoint).ret = 0 :=
  ⟨by norm_num [calculateDailyReturns, dailyReturnsFrom, dayMs],
   (spec_C4 (fun _ => 0) 0 2).2.2 ⟨-172800000, 0, 0⟩
     (by norm_num [calculateDailyReturns, dailyReturnsFrom, dayMs])⟩

/-- Counterexample to C4 as stated: with call time `now = 0` and
`windowDays = 2`, the series has `2` points, not `2 + 1`, and its last
point is dated `-86400000` (one day before `now`), not `now`. -/
theorem spec_C4_counterexample :
    (calculateDailyReturns (fun _ => 0) 0 2).length = 2 ∧ (2 : ℕ) ≠ 2 + 1 ∧
    (calculateDailyReturns (fun _ => 0) 0 2).map (·.date) =
      [-172800000, -86400000] ∧ (-86400000 : ℤ) ≠ 0 := by
  refine ⟨?_, by norm_num, ?_, by norm_num⟩ <;>
    norm_num [calculateDailyReturns, dailyReturnsFrom, dayMs]

/-- Each day's computed drawdown is non-negative (the updated peak is at
least the day's value). -/
theorem ddOf_nonneg (pk : ℚ) (d : DayPoint) : 0 ≤ ddOf pk d := by
  unfold ddOf
  split_ifs with h
  · have hv : d.value ≤ max pk d.value := le_max_right _ _
    have hq : 0 ≤ (max pk d.value - d.value) / max pk d.value :=
      div_nonneg (by linarith) (le_of_lt h)
    linarith
  · exact le_refl 0

/-- A day's computed drawdown is positive exactly when the updated peak is
positive and the day's value lies strictly below it. -/
theorem ddOf_pos_iff (pk : ℚ) (d : DayPoint) :
    0 < ddOf pk d ↔ 0 < max pk d.value ∧ d.value < max pk d.value := by
  unfold ddOf
  split_ifs with h
  · constructor
    · intro hpos
      refine ⟨h, ?_⟩
      by_contra hle
      push_neg at hle
      have hv : d.value ≤ max pk d.value := le_max_right _ _
      have hz : max pk d.value - d.value = 0 := by linarith
      rw [hz] at hpos
      simp at hpos
    · rintro ⟨h1, h2⟩
      have hq : 0 < (max pk d.value - d.value) / max pk d.value :=
        div_pos (by linarith) h1
      linarith
  · simp [h]

/-- The drawdown component of one `maxDrawdownStep`: the running maximum of
the incoming drawdown and the day's computed drawdown. -/
theorem maxDrawdownStep_fst (dd0 : ℚ) (p0 : Option (ℤ × ℤ)) (pk0 : ℚ)
    (pd0 : ℤ) (d : DayPoint) :
    (maxDrawdownStep (dd0, p0, pk0, pd0) d).1 = max dd0 (ddOf pk0 d) := by
  have hpk : (if d.value > pk0 then d.value else pk0) = max pk0 d.value := by
    rw [max_def]; split_ifs <;> linarith
  have hdd : (if max pk0 d.value > 0
      then ((max pk0 d.value - d.value) / max pk0 d.value) * 100 else 0) =
      ddOf pk0 d := rfl
  simp only [maxDrawdownStep, hpk, hdd]
  split_ifs <;>
    first
      | exact (max_eq_right (by linarith)).symm
      | exact (max_eq_left (by linarith)).symm

/-- The peak component of one `maxDrawdownStep`: the maximum of the incoming
peak and the day's value. -/
theorem maxDrawdownStep_peak (dd0 : ℚ) (p0 : Option (ℤ × ℤ)) (pk0 : ℚ)
    (pd0 : ℤ) (d : DayPoint) :
    (maxDrawdownStep (dd0, p0, pk0, pd0) d).2.2.1 = max pk0 d.value := by
  have hpk : (if d.value > pk0 then d.value else pk0) = max pk0 d.value := by
    rw [max_def]; split_ifs <;> linarith
  simp only [maxDrawdownStep, hpk]
  split_ifs <;> rfl

/-- Characterization of the drawdown fold: starting from a non-negative
running maximum, the final running maximum is non-negative, and it is
positive exactly when it started positive or some day declined below the
positive running peak. -/
theorem maxDrawdown_fold (l : List DayPoint) :
    ∀ (dd0 : ℚ) (p0 : Option (ℤ × ℤ)) (pk0 : ℚ) (pd0 : ℤ), 0 ≤ dd0 →
      0 ≤ (l.foldl maxDrawdownStep (dd0, p0, pk0, pd0)).1 ∧
      (0 < (l.foldl maxDrawdownStep (dd0, p0, pk0, pd0)).1 ↔
        0 < dd0 ∨ runningPeakDecline pk0 l) := by
  induction l with
  | nil =>
      intro dd0 p0 pk0 pd0 h0
      simp [runningPeakDecline, h0]
  | cons d rest ih =>
      intro dd0 p0 pk0 pd0 h0
      simp only [List.foldl_cons]
      rcases hstep : maxDrawdownStep (dd0, p0, pk0, pd0) d with ⟨dd1, p1, pk1, pd1⟩
      have h1 : dd1 = max dd0 (ddOf pk0 d) := by
        have hf := maxDrawdownStep_fst dd0 p0 pk0 pd0 d
        rw [hstep] at hf
        exact hf
      have h2 : pk1 = max pk0 d.value := by
        have hf := maxDrawdownStep_peak dd0 p0 pk0 pd0 d
        rw [hstep] at hf
        exact hf
      have h0' : 0 ≤ dd1 := by
        rw [h1]
        exact le_trans h0 (le_max_left _ _)
      obtain ⟨ha, hb⟩ := ih dd1 p1 pk1 pd1 h0'
      refine ⟨ha, ?_⟩
      rw [hb, h1, h2]
      have hdd := ddOf_pos_iff pk0 d
      simp only [runningPeakDecline]
      constructor
      · rintro (hmax | hrpd)
        · rcases lt_max_iff.mp hmax with h | h
          · exact Or.inl h
          · exact Or.inr (Or.inl (hdd.mp h))
        · exact Or.inr (Or.inr hrpd)
      · rintro (h | hdecl | hrpd)
        · exact Or.inl (lt_max_iff.mpr (Or.inl h))
        · exact Or.inl (lt_max_iff.mpr (Or.inr (hdd.mpr hdecl)))
        · exact Or.inr hrpd

/-- C9.  `calculateMaxDrawdown` reports null exactly when no decline from
the (positive) running peak occurred, and any reported drawdown is
non-negative — never negative. -/
theorem spec_C9 (l : List DayPoint) :
    ((calculateMaxDrawdown l).maxDrawdown = none ↔ ¬ declineOccurred l) ∧
    (∀ d, (calculateMaxDrawdown l).maxDrawdown = some d → 0 ≤ d) := by
  cases l with
  | nil =>
      constructor
      · simp [calculateMaxDrawdown, declineOccurred]
      · intro d hd
        simp [calculateMaxDrawdown] at hd
  | cons d0 rest =>
      obtain ⟨ha, hb⟩ := maxDrawdown_fold (d0 :: rest) 0 none d0.value d0.date le_rfl
      simp only [calculateMaxDrawdown, declineOccurred]
      constructor
      · constructor
        · intro hnone hdecl
          have hpos : 0 < ((d0 :: rest).foldl maxDrawdownStep
              (0, none, d0.value, d0.date)).1 := hb.mpr (Or.inr hdecl)
          rw [if_pos hpos] at hnone
          exact Option.some_ne_none _ hnone
        · intro hnd
          by_cases hpos : 0 < ((d0 :: rest).foldl maxDrawdownStep
              (0, none, d0.value, d0.date)).1
          · exfalso
            rcases hb.mp hpos with h00 | hd
            · exact lt_irrefl 0 h00
            · exact hnd hd
          · rw [if_neg hpos]
      · intro d hd
        by_cases hpos : 0 < ((d0 :: rest).foldl maxDrawdownStep
            (0, none, d0.value, d0.date)).1
        · rw [if_pos hpos] at hd
          have hds : d = ((d0 :: rest).foldl maxDrawdownStep
              (0, none, d0.value, d0.date)).1 := (Option.some_inj.mp hd).symm
          rw [hds]
          exact ha
        · rw [if_neg hpos] at hd
          exact absurd hd (Option.noConfusion)

/-- Witness for C9: the two-day series `100, 50` has maximum drawdown
`some 50`, and the theorem yields `0 ≤ 50`. -/
theorem spec_C9_witness :
    (calculateMaxDrawdown
      [(⟨0, 100, 0⟩ : DayPoint), ⟨1, 50, 0⟩]).maxDrawdown = some 50 ∧
    (0 : ℚ) ≤ 50 :=
  ⟨by norm_num [calculateMaxDrawdown, maxDrawdownStep],
   (spec_C9 [(⟨0, 100, 0⟩ : DayPoint), ⟨1, 50, 0⟩]).2 50
     (by norm_num [calculateMaxDrawdown, maxDrawdownStep])⟩

/-- `x || null` can only produce `some v` when the underlying lookup was
`some v` (and `v ≠ 0`). -/
theorem jsNumOrNull_eq_some (x : Option ℚ) (v : ℚ)
    (h : jsNumOrNull x = some v) : x = some v := by
  cases x with
  | none => exact absurd h (Option.noConfusion)
  | some w =>
      simp only [jsNumOrNull] at h
      by_cases hw : w = 0
      · rw [if_pos hw] at h
        exact absurd h (Option.noConfusion)
      · rw [if_neg hw] at h
        exact h

/-- The 99% index is at most the 95% index: `⌊n*0.01⌋ ≤ ⌊n*0.05⌋`. -/
theorem varIndex_le (n : ℕ) :
    Nat.floor ((n : ℚ) * (1 / 100)) ≤ Nat.floor ((n : ℚ) * (5 / 100)) :=
  Nat.floor_le_floor
    (mul_le_mul_of_nonneg_left (by norm_num) (Nat.cast_nonneg n))

/-- In an ascending-sorted list, the element at a smaller index is at most
the element at a larger index. -/
theorem sorted_get?_mono {l : List ℚ} (hs : l.Sorted (· ≤ ·)) {i j : ℕ}
    (hij : i ≤ j) {a b : ℚ} (ha : l.get? i = some a) (hb : l.get? j = some b) :
    a ≤ b := by
  obtain ⟨hi, hga⟩ := List.get?_eq_some.mp ha
  obtain ⟨hj, hgb⟩ := List.get?_eq_some.mp hb
  have hrel := hs.rel_get_of_le (a := ⟨i, hi⟩) (b := ⟨j, hj⟩)
    (Fin.mk_le_mk.mpr hij)
  rw [hga, hgb] at hrel
  exact hrel

/-- C8.  Whenever both Value-at-Risk figures of `calculateRiskMetrics` are
reported, the 99% VaR is at most the 95% VaR: the returns are sorted
ascending and `⌊n*0.01⌋ ≤ ⌊n*0.05⌋`. -/
theorem spec_C8 (sqrtQ : ℚ → ℚ) (dailyReturns : List DayPoint) (v99 v95 : ℚ)
    (h99 : (calculateRiskMetricsCore sqrtQ dailyReturns).valueAtRisk99 = some v99)
    (h95 : (calculateRiskMetricsCore sqrtQ dailyReturns).valueAtRisk95 = some v95) :
    v99 ≤ v95 := by
  by_cases hlen : dailyReturns.length = 0
  · simp [calculateRiskMetricsCore, hlen] at h99
  · simp only [calculateRiskMetricsCore, if_neg hlen] at h99 h95
    have h99g := jsNumOrNull_eq_some _ _ h99
    have h95g := jsNumOrNull_eq_some _ _ h95
    exact sorted_get?_mono
      (List.sorted_insertionSort (· ≤ ·) (dailyReturns.map (·.ret)))
      (varIndex_le _) h99g h95g

/-- Witness for C8: the one-day series with return `-5` reports both VaR
figures as `some (-5)`, and `-5 ≤ -5`. -/
theorem spec_C8_witness :
    (calculateRiskMetricsCore sqrtZero [(⟨0, 0, -5⟩ : DayPoint)]).valueAtRisk99 =
      some (-5) ∧
    (calculateRiskMetricsCore sqrtZero [(⟨0, 0, -5⟩ : DayPoint)]).valueAtRisk95 =
      some (-5) ∧
    (-5 : ℚ) ≤ -5 :=
  ⟨by norm_num [calculateRiskMetricsCore, jsNumOrNull, List.insertionSort,
      List.orderedInsert, Nat.floor_eq_zero],
   by norm_num [calculateRiskMetricsCore, jsNumOrNull, List.insertionSort,
      List.orderedInsert, Nat.floor_eq_zero],
   spec_C8 sqrtZero [(⟨0, 0, -5⟩ : DayPoint)] (-5) (-5)
     (by norm_num [calculateRiskMetricsCore, jsNumOrNull, List.insertionSort,
        List.orderedInsert, Nat.floor_eq_zero])
     (by norm_num [calculateRiskMetricsCore, jsNumOrNull, List.insertionSort,
        List.orderedInsert, Nat.floor_eq_zero])⟩

/-- C10.  For a non-empty series, when the ascending-sorted return at the
95% (respectively 99%) percentile index is exactly `0`,
`calculateRiskMetrics` reports that VaR as null (`none`), not `0`: the
JavaScript `returns[i] || null` coalesces a zero VaR to null. -/
theorem spec_C10 (sqrtQ : ℚ → ℚ) (dailyReturns : List DayPoint)
    (hne : dailyReturns ≠ []) :
    (((dailyReturns.map (·.ret)).insertionSort (· ≤ ·)).get?
        (Nat.floor
          ((((dailyReturns.map (·.ret)).insertionSort (· ≤ ·)).length : ℚ) *
            (5 / 100))) = some 0 →
      (calculateRiskMetricsCore sqrtQ dailyReturns).valueAtRisk95 = none) ∧
    (((dailyReturns.map (·.ret)).insertionSort (· ≤ ·)).get?
        (Nat.floor
          ((((dailyReturns.map (·.ret)).insertionSort (· ≤ ·)).length : ℚ) *
            (1 / 100))) = some 0 →
      (calculateRiskMetricsCore sqrtQ dailyReturns).valueAtRisk99 = none) := by
  have hlen : ¬ dailyReturns.length = 0 := by
    simpa [List.length_eq_zero] using hne
  constructor <;> intro hget <;>
    simp only [calculateRiskMetricsCore, if_neg hlen] <;>
    rw [hget] <;>
    simp [jsNumOrNull]

/-- Witness for C10: the one-day series with return `0` sorts to `[0]`,
both percentile indices are `0`, the sorted return there is `0`, and
both VaR figures are reported as null. -/
theorem spec_C10_witness :
    (calculateRiskMetricsCore sqrtZero [(⟨0, 0, 0⟩ : DayPoint)]).valueAtRisk95 =
      none ∧
    (calculateRiskMetricsCore sqrtZero [(⟨0, 0, 0⟩ : DayPoint)]).valueAtRisk99 =
      none :=
  ⟨(spec_C10 sqrtZero [(⟨0, 0, 0⟩ : DayPoint)] (by simp)).1
     (by norm_num [List.insertionSort, List.orderedInsert, Nat.floor_eq_zero]),
   (spec_C10 sqrtZero [(⟨0, 0, 0⟩ : DayPoint)] (by simp)).2
     (by norm_num [List.insertionSort, List.orderedInsert, Nat.floor_eq_zero])⟩

/-- The all-zero series has one point per remaining day. -/
theorem zeroPointsFrom_length (startMs : ℤ) :
    ∀ (rem i : ℕ), (zeroPointsFrom startMs i rem).length = rem := by
  intro rem
  induction rem with
  | zero => intro i; rfl
  | succ n ih => intro i; simp [zeroPointsFrom, ih]

/-- The returns of the all-zero series are all `0`. -/
theorem zeroPointsFrom_map_ret (startMs : ℤ) :
    ∀ (rem i : ℕ),
      (zeroPointsFrom startMs i rem).map (·.ret) = List.replicate rem 0 := by
  intro rem
  induction rem with
  | zero => intro i; rfl
  | succ n ih => intro i; simp [zeroPointsFrom, List.replicate_succ, ih]

/-- With an everywhere-zero value function and a zero (or absent) previous
value, the daily-returns loop produces the all-zero series. -/
theorem dailyReturnsFrom_zeroVal (val : ℤ → ℚ) (hval : ∀ d, val d = 0)
    (startMs : ℤ) :
    ∀ (rem i : ℕ) (prev : Option ℚ), prev = none ∨ prev = some 0 →
      dailyReturnsFrom val startMs i rem prev = zeroPointsFrom startMs i rem := by
  intro rem
  induction rem with
  | zero => intro i prev _; rfl
  | succ n ih =>
      intro i prev hprev
      rcases hprev with rfl | rfl <;>
        · simp only [dailyReturnsFrom, zeroPointsFrom, hval, gt_iff_lt,
            lt_self_iff_false, if_false]
          congr 1
          exact ih (i + 1) (some 0) (Or.inr rfl)

/-- Folding addition over a block of zeros returns the accumulator. -/
theorem foldl_add_zeros : ∀ (m : ℕ) (a : ℚ),
    List.foldl (· + ·) a (List.replicate m 0) = a := by
  intro m
  induction m with
  | zero => intro a; rfl
  | succ n ih => intro a; simp [List.replicate_succ, ih]

/-- Folding the squared-deviation accumulator over a block of zeros (with
zero mean) returns the accumulator. -/
theorem foldl_sq_zeros : ∀ (m : ℕ) (a : ℚ),
    List.foldl (fun s r => s + r ^ 2) a (List.replicate m 0) = a := by
  intro m
  induction m with
  | zero => intro a; rfl
  | succ n ih => intro a; simp [List.replicate_succ, ih]

/-- No zero return is strictly positive. -/
theorem filter_pos_zeros : ∀ m : ℕ,
    (List.replicate m (0 : ℚ)).filter (fun r => r > 0) = [] := by
  intro m
  induction m with
  | zero => rfl
  | succ n ih => simp [List.replicate_succ, ih]

/-- No zero return is strictly negative. -/
theorem filter_neg_zeros : ∀ m : ℕ,
    (List.replicate m (0 : ℚ)).filter (fun r => r < 0) = [] := by
  intro m
  induction m with
  | zero => rfl
  | succ n ih => simp [List.replicate_succ, ih]

/-- `Math.max` over a non-empty block of zeros is `0`. -/
theorem max?_replicate_zero : ∀ n : ℕ,
    (List.replicate (n + 1) (0 : ℚ)).max? = some 0 := by
  intro n
  induction n with
  | zero => rfl
  | succ k ih =>
      rw [List.replicate_succ, List.max?_cons, ih]
      simp

/-- `Math.min` over a non-empty block of zeros is `0`. -/
theorem min?_replicate_zero : ∀ n : ℕ,
    (List.replicate (n + 1) (0 : ℚ)).min? = some 0 := by
  intro n
  induction n with
  | zero => rfl
  | succ k ih =>
      rw [List.replicate_succ, List.min?_cons, ih]
      simp

/-- A zero-valued day leaves the drawdown accumulator `(0, p, 0, pd)`
unchanged. -/
theorem maxDrawdownStep_zeroDay (p0 : Option (ℤ × ℤ)) (pd0 : ℤ) (dt : ℤ) :
    maxDrawdownStep (0, p0, 0, pd0) ⟨dt, 0, 0⟩ = (0, p0, 0, pd0) := by
  simp [maxDrawdownStep]

/-- Folding the drawdown step over the all-zero series from the zero
accumulator changes nothing. -/
theorem maxDrawdown_fold_zeros (startMs : ℤ) :
    ∀ (rem i : ℕ) (p0 : Option (ℤ × ℤ)) (pd0 : ℤ),
      (zeroPointsFrom startMs i rem).foldl maxDrawdownStep (0, p0, 0, pd0) =
        (0, p0, 0, pd0) := by
  intro rem
  induction rem with
  | zero => intro i p0 pd0; rfl
  | succ n ih =>
      intro i p0 pd0
      rw [show zeroPointsFrom startMs i (n + 1) =
          (⟨startMs + (i : ℤ) * dayMs, 0, 0⟩ : DayPoint) ::
            zeroPointsFrom startMs (i + 1) n from rfl]
      rw [List.foldl_cons, maxDrawdownStep_zeroDay]
      exact ih (i + 1) p0 pd0

/-- `calculateMaxDrawdown` on the all-zero series reports no drawdown and
no period. -/
theorem calculateMaxDrawdown_zeros (startMs : ℤ) (n : ℕ) :
    calculateMaxDrawdown (zeroPointsFrom startMs 0 (n + 1)) = ⟨none, none⟩ := by
  rw [show zeroPointsFrom startMs 0 (n + 1) =
      (⟨startMs + ((0 : ℕ) : ℤ) * dayMs, 0, 0⟩ : DayPoint) ::
        zeroPointsFrom startMs 1 n from rfl]
  simp only [calculateMaxDrawdown]
  rw [show ((⟨startMs + ((0 : ℕ) : ℤ) * dayMs, 0, 0⟩ : DayPoint) ::
      zeroPointsFrom startMs 1 n).foldl maxDrawdownStep
      (0, none, 0, startMs + ((0 : ℕ) : ℤ) * dayMs) =
      (0, none, 0, startMs + ((0 : ℕ) : ℤ) * dayMs) from by
    rw [List.foldl_cons, maxDrawdownStep_zeroDay]
    exact maxDrawdown_fold_zeros startMs n 1 none _]
  simp

/-- `calculateAdvancedMetrics`' statistics on the all-zero daily series of
`n + 1` days (given an exact square root at `0`): Sharpe ratio and
drawdown are null, volatility is `0` (not null), win rate and annualized
return are `0`, best and worst day are the first day with return `0`,
and the trading-day count is the series length. -/
theorem advancedMetrics_zeroSeries (sqrtQ : ℚ → ℚ) (hs : sqrtQ 0 = 0)
    (startMs : ℤ) (n : ℕ) :
    calculateAdvancedMetricsCore sqrtQ (zeroPointsFrom startMs 0 (n + 1)) =
      { sharpeRatio := none, volatility := some 0, maxDrawdown := none,
        maxDrawdownPeriod := none, averageReturn := 0, winRate := 0,
        bestDay := some (startMs, 0), worstDay := some (startMs, 0),
        totalTradingDays := n + 1 } := by
  have hlen0 : ¬ (zeroPointsFrom startMs 0 (n + 1)).length = 0 := by
    rw [zeroPointsFrom_length]
    omega
  have hret := zeroPointsFrom_map_ret startMs (n + 1) 0
  have hmd := calculateMaxDrawdown_zeros startMs n
  have hget : (zeroPointsFrom startMs 0 (n + 1)).get? 0 =
      some (⟨startMs, 0, 0⟩ : DayPoint) := by
    rw [show zeroPointsFrom startMs 0 (n + 1) =
        (⟨startMs + ((0 : ℕ) : ℤ) * dayMs, 0, 0⟩ : DayPoint) ::
          zeroPointsFrom startMs 1 n from rfl, List.get?_cons_zero]
    norm_num
  have hget0 : (List.replicate (n + 1) (0 : ℚ)).get? 0 = some 0 := by
    rw [List.replicate_succ, List.get?_cons_zero]
  have hidx : (List.replicate (n + 1) (0 : ℚ)).indexOf 0 = 0 := by
    rw [List.replicate_succ]
    exact List.indexOf_cons_self 0 _
  simp only [calculateAdvancedMetricsCore]
  rw [if_neg hlen0]
  simp only [hret, hmd, foldl_add_zeros, List.length_replicate, zero_div,
    sub_zero, foldl_sq_zeros, hs, zero_mul, gt_iff_lt, lt_self_iff_false,
    if_false, filter_pos_zeros, List.length_nil, Nat.cast_zero,
    max?_replicate_zero, min?_replicate_zero, hidx, hget, hget0,
    Option.map_some', Option.getD_some]

/-- Inserting `0` into a block of zeros prepends it. -/
theorem orderedInsert_zeros : ∀ m : ℕ,
    List.orderedInsert (· ≤ ·) (0 : ℚ) (List.replicate m 0) =
      List.replicate (m + 1) 0 := by
  intro m
  cases m with
  | zero => rfl
  | succ k =>
      rw [List.replicate_succ]
      simp [List.orderedInsert, List.replicate_succ]

/-- Sorting a block of zeros is the identity. -/
theorem insertionSort_zeros : ∀ m : ℕ,
    List.insertionSort (· ≤ ·) (List.replicate m (0 : ℚ)) =
      List.replicate m 0 := by
  intro m
  induction m with
  | zero => rfl
  | succ k ih =>
      rw [List.replicate_succ]
      simp [List.insertionSort, ih, orderedInsert_zeros, List.replicate_succ]

/-- Any in-range index of a block of zeros reads `some 0`. -/
theorem get?_replicate_zero (m i : ℕ) (h : i < m) :
    (List.replicate m (0 : ℚ)).get? i = some 0 := by
  rw [List.get?_eq_some]
  exact ⟨by simpa using h, List.get_replicate _ _⟩

/-- `calculateRiskMetrics`' statistics on the all-zero 365-day series: both
VaR figures are null (a zero percentile return is coalesced to null),
CVaR is `some 0` (not null), and downside deviation and Sortino ratio
are null. -/
theorem riskMetrics_zeroSeries (sqrtQ : ℚ → ℚ) (startMs : ℤ) :
    calculateRiskMetricsCore sqrtQ (zeroPointsFrom startMs 0 365) =
      ⟨none, none, some 0, none, none⟩ := by
  have hlen0 : ¬ (zeroPointsFrom startMs 0 365).length = 0 := by
    rw [zeroPointsFrom_length]
    omega
  have hret : (zeroPointsFrom startMs 0 365).map (·.ret) =
      List.replicate 365 0 := zeroPointsFrom_map_ret startMs 365 0
  have h18 : Nat.floor (((365 : ℕ) : ℚ) * (5 / 100)) = 18 := by
    norm_num [Nat.floor_eq_iff]
  have h3 : Nat.floor (((365 : ℕ) : ℚ) * (1 / 100)) = 3 := by
    norm_num [Nat.floor_eq_iff]
  have hg18 : (List.replicate 365 (0 : ℚ)).get? 18 = some 0 :=
    get?_replicate_zero 365 18 (by omega)
  have hg3 : (List.replicate 365 (0 : ℚ)).get? 3 = some 0 :=
    get?_replicate_zero 365 3 (by omega)
  have hmin : ((18 + 1 : ℕ) ⊓ 365) = 19 := by norm_num
  unfold calculateRiskMetricsCore
  rw [if_neg hlen0, hret, insertionSort_zeros]
  simp only [List.length_replicate, h18, h3, hg18, hg3,
    jsNumOrNull, List.take_replicate, hmin, foldl_add_zeros, zero_div,
    filter_neg_zeros, List.length_nil, lt_self_iff_false, if_false, gt_iff_lt]
  norm_num

/-- C1 (amended).  For a user with zero transactions the pipeline never
throws (it is total), but the 365-day daily series is 365 all-zero
points, not an empty series, so `calculateAdvancedMetrics` returns
sharpeRatio/maxDrawdown null yet volatility `0` (not null), best and
worst day present (first day, return `0`) and `totalTradingDays = 365`;
`calculateRiskMetrics` returns both VaR figures, downside deviation and
Sortino null, yet conditional VaR `0` (not null). -/
theorem spec_C1 (sqrtQ : ℚ → ℚ) (oracle : PriceOracle) (nowMs : ℤ)
    (hs : sqrtQ 0 = 0) :
    calculateAdvancedMetrics sqrtQ [] oracle nowMs =
      { sharpeRatio := none, volatility := some 0, maxDrawdown := none,
        maxDrawdownPeriod := none, averageReturn := 0, winRate := 0,
        bestDay := some (nowMs - 365 * dayMs, 0),
        worstDay := some (nowMs - 365 * dayMs, 0),
        totalTradingDays := 365 } ∧
    calculateRiskMetrics sqrtQ [] oracle nowMs =
      { valueAtRisk95 := none, valueAtRisk99 := none,
        conditionalValueAtRisk := some 0, downsideDeviation := none,
        sortinoRatio := none } := by
  have hdaily : calculateDailyReturns (estimatePortfolioValueAtDate [] oracle)
      nowMs 365 = zeroPointsFrom (nowMs - (365 : ℕ) * dayMs) 0 365 :=
    dailyReturnsFrom_zeroVal _ (fun _ => rfl) _ 365 0 none (Or.inl rfl)
  constructor
  · rw [show calculateAdvancedMetrics sqrtQ [] oracle nowMs =
        calculateAdvancedMetricsCore sqrtQ (calculateDailyReturns
          (estimatePortfolioValueAtDate [] oracle) nowMs 365) from rfl, hdaily]
    exact advancedMetrics_zeroSeries sqrtQ hs (nowMs - (365 : ℕ) * dayMs) 364
  · rw [show calculateRiskMetrics sqrtQ [] oracle nowMs =
        calculateRiskMetricsCore sqrtQ (calculateDailyReturns
          (estimatePortfolioValueAtDate [] oracle) nowMs 365) from rfl, hdaily]
    exact riskMetrics_zeroSeries sqrtQ (nowMs - (365 : ℕ) * dayMs)

/-- Witness for C1 (amended): instantiated at an exact square root, the
always-miss oracle and call time `0`. -/
theorem spec_C1_witness :
    sqrtZero 0 = 0 ∧
    (calculateAdvancedMetrics sqrtZero [] missOracle 0 =
      { sharpeRatio := none, volatility := some 0, maxDrawdown := none,
        maxDrawdownPeriod := none, averageReturn := 0, winRate := 0,
        bestDay := some ((0 : ℤ) - 365 * dayMs, 0),
        worstDay := some ((0 : ℤ) - 365 * dayMs, 0),
        totalTradingDays := 365 } ∧
    calculateRiskMetrics sqrtZero [] missOracle 0 =
      { valueAtRisk95 := none, valueAtRisk99 := none,
        conditionalValueAtRisk := some 0, downsideDeviation := none,
        sortinoRatio := none }) :=
  ⟨rfl, spec_C1 sqrtZero missOracle 0 rfl⟩

/-- Counterexample to C1 as stated: with zero transactions the advanced
metrics are not the all-null/zero-count structure — the trading-day
count is `365`, the best day is present, volatility is `some 0` — and
the risk metrics are not all null: conditional VaR is `some 0`. -/
theorem spec_C1_counterexample :
    (calculateAdvancedMetrics sqrtZero [] missOracle 0).totalTradingDays = 365 ∧
    (365 : ℕ) ≠ 0 ∧
    (calculateAdvancedMetrics sqrtZero [] missOracle 0).bestDay ≠ none ∧
    (calculateAdvancedMetrics sqrtZero [] missOracle 0).volatility = some 0 ∧
    (calculateRiskMetrics sqrtZero [] missOracle 0).conditionalValueAtRisk =
      some 0 := by
  have hdaily : calculateDailyReturns (estimatePortfolioValueAtDate [] missOracle)
      0 365 = zeroPointsFrom ((0 : ℤ) - (365 : ℕ) * dayMs) 0 365 :=
    dailyReturnsFrom_zeroVal _ (fun _ => rfl) _ 365 0 none (Or.inl rfl)
  have hA : calculateAdvancedMetrics sqrtZero [] missOracle 0 =
      { sharpeRatio := none, volatility := some 0, maxDrawdown := none,
        maxDrawdownPeriod := none, averageReturn := 0, winRate := 0,
        bestDay := some ((0 : ℤ) - (365 : ℕ) * dayMs, 0),
        worstDay := some ((0 : ℤ) - (365 : ℕ) * dayMs, 0),
        totalTradingDays := 364 + 1 } := by
    rw [show calculateAdvancedMetrics sqrtZero [] missOracle 0 =
        calculateAdvancedMetricsCore sqrtZero (calculateDailyReturns
          (estimatePortfolioValueAtDate [] missOracle) 0 365) from rfl, hdaily]
    exact advancedMetrics_zeroSeries sqrtZero rfl ((0 : ℤ) - (365 : ℕ) * dayMs) 364
  have hR : calculateRiskMetrics sqrtZero [] missOracle 0 =
      ⟨none, none, some 0, none, none⟩ := by
    rw [show calculateRiskMetrics sqrtZero [] missOracle 0 =
        calculateRiskMetricsCore sqrtZero (calculateDailyReturns
          (estimatePortfolioValueAtDate [] missOracle) 0 365) from rfl, hdaily]
    exact riskMetrics_zeroSeries sqrtZero ((0 : ℤ) - (365 : ℕ) * dayMs)
  refine ⟨?_, by norm_num, ?_, ?_, ?_⟩ <;> simp [hA, hR]
